import Mathlib

/-!
Shallow embedding of the batch job orchestration engine of
`src/src-tauri/src/batch_processing.rs` (gait-monitor repository).

Modelling conventions:
- `DateTime<Utc>` timestamps and `Instant` values are modelled as `Nat`
  seconds; `f64` fields that the engine writes but the claims do not
  compute with (`percentage`, running averages) are modelled as `ℚ`.
- `HashMap` is modelled as an association list (`alLookup` / `alInsert` /
  `alUpdate` / `alRemove` mirror `get`, `insert`, `get_mut`, `remove`);
  `VecDeque` is a `List` (`pop_front` = head split, `push_back` = append,
  `insert(i, _)` = positional insertion, `retain` = filter).
- The asynchronous worker / scheduler tasks are modelled as pure state
  transformers on `ProcState`: `markRunning` is the worker's "update job
  status to running" block, `applyOutcome` its "update job status and
  statistics" block, `schedulerTick` one iteration of the scheduler loop
  (dispatch compressed to `markRunning`, since the worker sets the stored
  job Running unconditionally on receipt), and `process_job_type` the
  handler body with the simulated `sleep`s dropped (they do not affect
  the returned value).
-/

namespace GaitBatch

/-- Association-list lookup, mirroring `HashMap::get`. -/
def alLookup {β : Type} (m : List (String × β)) (k : String) : Option β :=
  match m.find? (fun kv => kv.1 == k) with
  | some kv => some kv.2
  | none => none

/-- Association-list insert, mirroring `HashMap::insert` (replace if the key
is present, otherwise add). -/
def alInsert {β : Type} (m : List (String × β)) (k : String) (v : β) : List (String × β) :=
  if m.any (fun kv => kv.1 == k) then
    m.map (fun kv => if kv.1 == k then (k, v) else kv)
  else
    m ++ [(k, v)]

/-- Association-list in-place update, mirroring `HashMap::get_mut` followed by
mutation (no effect when the key is absent). -/
def alUpdate {β : Type} (m : List (String × β)) (k : String) (f : β → β) : List (String × β) :=
  m.map (fun kv => if kv.1 == k then (kv.1, f kv.2) else kv)

/-- Association-list removal, mirroring `HashMap::remove`. -/
def alRemove {β : Type} (m : List (String × β)) (k : String) : List (String × β) :=
  m.filter (fun kv => kv.1 != k)

/-- `enum JobType` with its per-variant payloads (`DateTime` pairs as `Nat`
pairs, `HashMap<String,String>` as an association list). -/
inductive JobType where
  | DataExport (sessionIds : List String) (exportFormat : String) (outputPath : String)
  | DataAnalysis (sessionIds : List String) (analysisType : String) (parameters : List (String × String))
  | DataValidation (sessionIds : List String) (validationRules : List String)
  | DataCleanup (olderThanDays : Nat) (preserveImportant : Bool)
  | BufferOptimization (deviceIds : List String) (optimizationType : String)
  | BackupOperation (backupType : String) (includeSessions : Bool) (includeConfig : Bool)
  | ReportGeneration (reportType : String) (timeRange : Nat × Nat) (recipients : List String)
deriving DecidableEq, Repr

/-- `enum JobStatus`. -/
inductive JobStatus where
  | Queued
  | Running
  | Completed
  | Failed
  | Cancelled
  | Paused
deriving DecidableEq, Repr

/-- `enum JobPriority` (discriminants Low = 1 … Critical = 4). -/
inductive JobPriority where
  | Low
  | Normal
  | High
  | Critical
deriving DecidableEq, Repr

/-- The numeric discriminant of a priority; Rust's derived `Ord` compares
these values. -/
def JobPriority.rank : JobPriority → Nat
  | .Low => 1
  | .Normal => 2
  | .High => 3
  | .Critical => 4

/-- `struct JobProgress`. -/
structure JobProgress where
  current_step : Nat
  total_steps : Nat
  current_item : String
  items_processed : Nat
  total_items : Nat
  percentage : ℚ
  estimated_remaining_seconds : Nat
  throughput_items_per_second : ℚ
  last_update : Nat
deriving DecidableEq, Repr

/-- `impl Default for JobProgress` (`last_update = Utc::now()` passed as the
`now` argument). -/
def JobProgress.mkDefault (now : Nat) : JobProgress :=
  { current_step := 0
    total_steps := 1
    current_item := ""
    items_processed := 0
    total_items := 0
    percentage := 0
    estimated_remaining_seconds := 0
    throughput_items_per_second := 0
    last_update := now }

/-- `struct BatchJob`. -/
structure BatchJob where
  id : String
  job_type : JobType
  priority : JobPriority
  status : JobStatus
  progress : JobProgress
  created_at : Nat
  started_at : Option Nat
  completed_at : Option Nat
  error_message : Option String
  retry_count : Nat
  max_retries : Nat
  timeout_seconds : Nat
  metadata : List (String × String)
  dependencies : List String
  result_data : Option String
deriving DecidableEq, Repr

/-- `BatchJob::new` (the random UUID and `Utc::now()` are passed as
arguments). -/
def BatchJob.new (id : String) (job_type : JobType) (priority : JobPriority) (now : Nat) : BatchJob :=
  { id := id
    job_type := job_type
    priority := priority
    status := JobStatus.Queued
    progress := JobProgress.mkDefault now
    created_at := now
    started_at := none
    completed_at := none
    error_message := none
    retry_count := 0
    max_retries := 3
    timeout_seconds := 3600
    metadata := []
    dependencies := []
    result_data := none }

/-- `BatchJob::is_ready_to_run`: Queued, and every dependency id resolves in
the snapshot to a job whose status is Completed. -/
def BatchJob.is_ready_to_run (self : BatchJob) (completed_jobs : List (String × BatchJob)) : Bool :=
  if self.status ≠ JobStatus.Queued then
    false
  else
    self.dependencies.all (fun dep_id =>
      match alLookup completed_jobs dep_id with
      | some job => job.status = JobStatus.Completed
      | none => false)

/-- `enum JobResult`. -/
inductive JobResult where
  | Success (data : Option String)
  | Failure (error : String)
  | Retry (reason : String)
  | Cancel
deriving DecidableEq, Repr

/-- `struct BatchProcessorConfig`. -/
structure BatchProcessorConfig where
  max_concurrent_jobs : Nat
  job_timeout_seconds : Nat
  retry_delay_seconds : Nat
  max_queue_size : Nat
  cleanup_completed_jobs_after_hours : Nat
  enable_job_persistence : Bool
  worker_thread_count : Nat
  priority_scheduling : Bool
deriving DecidableEq, Repr

/-- `impl Default for BatchProcessorConfig`. -/
def BatchProcessorConfig.mkDefault : BatchProcessorConfig :=
  { max_concurrent_jobs := 4
    job_timeout_seconds := 3600
    retry_delay_seconds := 60
    max_queue_size := 1000
    cleanup_completed_jobs_after_hours := 24
    enable_job_persistence := true
    worker_thread_count := 2
    priority_scheduling := true }

/-- `struct QueueStats` (the two `f64` aggregates as `ℚ`). -/
structure QueueStats where
  total_jobs : Nat
  queued_jobs : Nat
  running_jobs : Nat
  completed_jobs : Nat
  failed_jobs : Nat
  cancelled_jobs : Nat
  average_processing_time_seconds : ℚ
  throughput_jobs_per_minute : ℚ
  queue_length : Nat
  oldest_queued_job_age_seconds : Nat
  worker_utilization : ℚ
deriving DecidableEq, Repr

/-- The zeroed statistics record built in `BatchProcessor::new`. -/
def QueueStats.initial : QueueStats :=
  { total_jobs := 0
    queued_jobs := 0
    running_jobs := 0
    completed_jobs := 0
    failed_jobs := 0
    cancelled_jobs := 0
    average_processing_time_seconds := 0
    throughput_jobs_per_minute := 0
    queue_length := 0
    oldest_queued_job_age_seconds := 0
    worker_utilization := 0 }

/-- The shared mutable state of `BatchProcessor`: the job map, the id queue,
the statistics, and the `running_jobs` start-instant map. -/
structure ProcState where
  jobs : List (String × BatchJob)
  queue : List String
  stats : QueueStats
  running_jobs : List (String × Nat)
deriving DecidableEq, Repr

/-- The priority-scan insertion loop of `BatchProcessor::submit_job`: walk the
queue from the front; at the first existing id whose looked-up job has
strictly lower priority than the new job, insert the new id there; ids whose
lookup fails are skipped (the `if let Some` guard); if no insertion point is
found, `push_back`. -/
def insertQueue (jobs : List (String × BatchJob)) (job_priority : JobPriority) (job_id : String) :
    List String → List String
  | [] => [job_id]
  | existing_id :: rest =>
    match alLookup jobs existing_id with
    | some existing_job =>
      if existing_job.priority.rank < job_priority.rank then
        job_id :: existing_id :: rest
      else
        existing_id :: insertQueue jobs job_priority job_id rest
    | none => existing_id :: insertQueue jobs job_priority job_id rest

/-- `BatchProcessor::submit_job`: reject with "Job queue is full" when the
tracked-job map already holds at least `max_queue_size` entries; otherwise
force status Queued, store the job, insert its id into the queue (priority
scan when `priority_scheduling`, plain append otherwise), and bump the
statistics. -/
def submit_job (cfg : BatchProcessorConfig) (job : BatchJob) (s : ProcState) :
    Except String String × ProcState :=
  if s.jobs.length ≥ cfg.max_queue_size then
    (Except.error "Job queue is full", s)
  else
    let job' := { job with status := JobStatus.Queued }
    let job_id := job'.id
    let jobs := alInsert s.jobs job_id job'
    let queue :=
      if cfg.priority_scheduling then
        insertQueue jobs job'.priority job_id s.queue
      else
        s.queue ++ [job_id]
    let stats :=
      { s.stats with
        total_jobs := s.stats.total_jobs + 1
        queued_jobs := s.stats.queued_jobs + 1
        queue_length := queue.length }
    (Except.ok job_id, { s with jobs := jobs, queue := queue, stats := stats })

/-- `BatchProcessor::cancel_job`: Queued jobs are cancelled and removed from
the queue; Running jobs are only marked Cancelled (the comment claims the
running handler will notice); any other status is an error. -/
def cancel_job (job_id : String) (s : ProcState) : Except String Unit × ProcState :=
  match alLookup s.jobs job_id with
  | none => (Except.error "Job not found", s)
  | some job =>
    match job.status with
    | JobStatus.Queued =>
      let jobs := alUpdate s.jobs job_id (fun j => { j with status := JobStatus.Cancelled })
      let queue := s.queue.filter (fun id => id != job_id)
      let stats :=
        { s.stats with
          queued_jobs := s.stats.queued_jobs - 1
          cancelled_jobs := s.stats.cancelled_jobs + 1
          queue_length := queue.length }
      (Except.ok (), { s with jobs := jobs, queue := queue, stats := stats })
    | JobStatus.Running =>
      let jobs := alUpdate s.jobs job_id (fun j => { j with status := JobStatus.Cancelled })
      let stats :=
        { s.stats with
          running_jobs := s.stats.running_jobs - 1
          cancelled_jobs := s.stats.cancelled_jobs + 1 }
      (Except.ok (), { s with jobs := jobs, stats := stats })
    | _ => (Except.error "Job cannot be cancelled in current state", s)

/-- The worker's "update job status to running" block in
`BatchProcessor::start_workers`: set the stored job Running with
`started_at = now`, shift the queued/running counters, and record the start
instant in `running_jobs`. -/
def markRunning (job_id : String) (now : Nat) (start_instant : Nat) (s : ProcState) : ProcState :=
  let jobs := alUpdate s.jobs job_id
    (fun j => { j with status := JobStatus.Running, started_at := some now })
  let stats :=
    { s.stats with
      queued_jobs := s.stats.queued_jobs - 1
      running_jobs := s.stats.running_jobs + 1 }
  { s with
    jobs := jobs
    stats := stats
    running_jobs := alInsert s.running_jobs job_id start_instant }

/-- The worker's "update job status and statistics" block in
`BatchProcessor::start_workers`: when the job is still tracked,
unconditionally stamp `completed_at = now`, then apply the outcome
(Success → Completed, Failure → Failed, Retry → increment `retry_count`
first, back to Queued while it stays below `max_retries`, else Failed with a
"Max retries exceeded" message, Cancel → Cancelled); afterwards decrement the
running counter, drop the start instant, and fold the processing time into
the running average. -/
def applyOutcome (job_id : String) (result : JobResult) (now : Nat) (processing_time : ℚ)
    (s : ProcState) : ProcState :=
  let (jobs, stats) :=
    match alLookup s.jobs job_id with
    | none => (s.jobs, s.stats)
    | some stored_job =>
      let stored_job := { stored_job with completed_at := some now }
      let (stored_job, stats) :=
        match result with
        | JobResult.Success data =>
          ({ stored_job with
              status := JobStatus.Completed
              result_data := data
              progress := { stored_job.progress with percentage := 100 } },
           { s.stats with completed_jobs := s.stats.completed_jobs + 1 })
        | JobResult.Failure error =>
          ({ stored_job with
              status := JobStatus.Failed
              error_message := some error },
           { s.stats with failed_jobs := s.stats.failed_jobs + 1 })
        | JobResult.Retry reason =>
          let rc := stored_job.retry_count + 1
          if rc < stored_job.max_retries then
            ({ stored_job with
                retry_count := rc
                status := JobStatus.Queued
                error_message := some reason },
             s.stats)
          else
            ({ stored_job with
                retry_count := rc
                status := JobStatus.Failed
                error_message := some ("Max retries exceeded: " ++ reason) },
             { s.stats with failed_jobs := s.stats.failed_jobs + 1 })
        | JobResult.Cancel =>
          ({ stored_job with status := JobStatus.Cancelled },
           { s.stats with cancelled_jobs := s.stats.cancelled_jobs + 1 })
      (alUpdate s.jobs job_id (fun _ => stored_job), stats)
  let stats := { stats with running_jobs := stats.running_jobs - 1 }
  let running_jobs := alRemove s.running_jobs job_id
  let total_completed := stats.completed_jobs + stats.failed_jobs
  let stats :=
    if total_completed > 0 then
      { stats with
        average_processing_time_seconds :=
          (stats.average_processing_time_seconds * ((total_completed - 1 : Nat) : ℚ) +
            processing_time) / (total_completed : ℚ) }
    else stats
  { s with jobs := jobs, stats := stats, running_jobs := running_jobs }

/-- One iteration of the loop in `BatchProcessor::start_scheduler`: skip when
the running count has reached `max_concurrent`; otherwise `pop_front` the
queue; if the popped id resolves and `is_ready_to_run` holds on a snapshot of
the job map, dispatch it to a worker (which sets it Running via
`markRunning`); if it is not ready, `push_back` the id. No part of the loop
consults `timeout_seconds` or the recorded start instants. -/
def schedulerTick (max_concurrent : Nat) (now : Nat) (now_instant : Nat) (s : ProcState) :
    ProcState :=
  let current_running := s.running_jobs.length
  if current_running ≥ max_concurrent then
    s
  else
    match s.queue with
    | [] => s
    | job_id :: rest =>
      let s' := { s with queue := rest }
      match alLookup s'.jobs job_id with
      | none => s'
      | some job =>
        if job.is_ready_to_run s'.jobs then
          markRunning job_id now now_instant s'
        else
          { s' with queue := s'.queue ++ [job_id] }

/-- The removal loop shared by `cleanup_completed_jobs` and the cleanup task:
remove each listed id from the map and decrement the matching terminal-state
counter. -/
def removeJobs : List String → List (String × BatchJob) → QueueStats →
    List (String × BatchJob) × QueueStats
  | [], jobs, stats => (jobs, stats)
  | job_id :: rest, jobs, stats =>
    match alLookup jobs job_id with
    | none => removeJobs rest jobs stats
    | some job =>
      let jobs := alRemove jobs job_id
      let stats :=
        match job.status with
        | JobStatus.Completed => { stats with completed_jobs := stats.completed_jobs - 1 }
        | JobStatus.Failed => { stats with failed_jobs := stats.failed_jobs - 1 }
        | JobStatus.Cancelled => { stats with cancelled_jobs := stats.cancelled_jobs - 1 }
        | _ => stats
      removeJobs rest jobs stats

/-- The removal filter of `cleanup_completed_jobs`: terminal status and
`completed_at` strictly older than the cutoff (`completed_at = None` never
qualifies). -/
def cleanupFilter (cutoff_time : Nat) (job : BatchJob) : Bool :=
  (job.status = JobStatus.Completed ∨ job.status = JobStatus.Failed ∨
      job.status = JobStatus.Cancelled) &&
    match job.completed_at with
    | some completed => completed < cutoff_time
    | none => false

/-- `BatchProcessor::cleanup_completed_jobs`: compute the cutoff
(`now - cleanup_completed_jobs_after_hours` hours, as seconds), collect the
ids passing `cleanupFilter`, remove them, reset `total_jobs` to the new map
size, and return the removed count. -/
def cleanup_completed_jobs (cfg : BatchProcessorConfig) (now : Nat) (s : ProcState) :
    Nat × ProcState :=
  let cutoff_time := now - cfg.cleanup_completed_jobs_after_hours * 3600
  let jobs_to_remove := (s.jobs.filter (fun kv => cleanupFilter cutoff_time kv.2)).map (·.1)
  let removed_count := jobs_to_remove.length
  let (jobs, stats) := removeJobs jobs_to_remove s.jobs s.stats
  let stats := { stats with total_jobs := jobs.length }
  (removed_count, { s with jobs := jobs, stats := stats })

/-- The `DataExport` loop of `BatchProcessor::process_job_type`: before each
session it checks `job.status == JobStatus::Cancelled` on the `job` value it
was handed (the clone sent in the `ProcessJob` message) and returns `Cancel`
if so; otherwise it finishes with a `Success` summary. -/
def exportLoop (job : BatchJob) (output_path : String) (total : Nat) :
    List String → JobResult
  | [] =>
    JobResult.Success (some ("Exported " ++ toString total ++ " sessions to " ++ output_path))
  | _ :: rest =>
    if job.status = JobStatus.Cancelled then
      JobResult.Cancel
    else
      exportLoop job output_path total rest

/-- `BatchProcessor::process_job_type` with the simulated `sleep`s removed:
its only input is the `BatchJob` value carried by the worker message (a clone
made at dispatch time), so the cancellation check in the `DataExport` branch
can only ever see that snapshot. -/
def process_job_type (job : BatchJob) : JobResult :=
  match job.job_type with
  | JobType.DataExport session_ids _ output_path =>
    exportLoop job output_path session_ids.length session_ids
  | JobType.DataAnalysis session_ids analysis_type _ =>
    JobResult.Success (some ("Analyzed " ++ toString session_ids.length ++ " sessions with " ++
      analysis_type))
  | JobType.DataValidation session_ids _ =>
    JobResult.Success (some ("Validated " ++ toString session_ids.length ++ " sessions"))
  | JobType.DataCleanup older_than_days _ =>
    JobResult.Success (some ("Cleaned up data older than " ++ toString older_than_days ++ " days"))
  | JobType.BufferOptimization device_ids _ =>
    JobResult.Success (some ("Optimized " ++ toString device_ids.length ++ " device buffers"))
  | JobType.BackupOperation backup_type _ _ =>
    JobResult.Success (some ("Created " ++ backup_type ++ " backup"))
  | JobType.ReportGeneration report_type _ recipients =>
    JobResult.Success (some ("Generated " ++ report_type ++ " report for " ++
      toString recipients.length ++ " recipients"))

/-- One full execution attempt of a job whose handler reports `Retry`: the
worker marks the stored job Running (`markRunning`) and then applies the
`Retry` outcome (`applyOutcome`); the simulated processing time is 0. -/
def retryCycle (job_id : String) (reason : String) (now : Nat) (s : ProcState) : ProcState :=
  applyOutcome job_id (JobResult.Retry reason) now 0 (markRunning job_id now now s)

/-- The effect of one `retryCycle` on the stored job record alone (derived
from `markRunning` followed by the `Retry` arm of `applyOutcome`): Running
w/ `started_at`, then `completed_at` stamped, `retry_count` incremented
first, then Queued while below `max_retries`, else Failed with the
"Max retries exceeded" message. -/
def retryJobStep (reason : String) (now : Nat) (j : BatchJob) : BatchJob :=
  let j := { j with status := JobStatus.Running, started_at := some now }
  let j := { j with completed_at := some now }
  let rc := j.retry_count + 1
  if rc < j.max_retries then
    { j with retry_count := rc, status := JobStatus.Queued, error_message := some reason }
  else
    { j with
      retry_count := rc
      status := JobStatus.Failed
      error_message := some ("Max retries exceeded: " ++ reason) }

/-- The priority of the job an id resolves to, if any. -/
def prioOf (jobs : List (String × BatchJob)) (x : String) : Option JobPriority :=
  (alLookup jobs x).map (·.priority)

/-- Boolean version of the scan condition of `insertQueue`: the id resolves
and its job's priority is strictly lower than `p`. -/
def lowerThan (jobs : List (String × BatchJob)) (p : JobPriority) (x : String) : Bool :=
  match alLookup jobs x with
  | some xj => xj.priority.rank < p.rank
  | none => false

/-- Comparison of two optional priorities: the later one is not higher than
the earlier one (vacuously true when either id does not resolve). -/
def rankOk (pa pb : Option JobPriority) : Bool :=
  match pa, pb with
  | some a, some b => b.rank ≤ a.rank
  | _, _ => true

/-- The queue's induced priority sequence is non-increasing: for any id
appearing before another, the later job's priority does not exceed the
earlier one's. -/
def QueueSorted (jobs : List (String × BatchJob)) (q : List String) : Prop :=
  q.Pairwise (fun a b => rankOk (prioOf jobs a) (prioOf jobs b) = true)

/-- Fixture job type for concrete runs. -/
def sampleType : JobType := JobType.DataCleanup 30 true

/-- Fixture Running job with a given id and `max_retries`. -/
def runningJob (id : String) (m : Nat) : BatchJob :=
  { BatchJob.new id sampleType JobPriority.Normal 0 with
    status := JobStatus.Running
    started_at := some 0
    max_retries := m }

/-- Fixture state holding the single Running job "a" (already dispatched, so
the queue is empty and its start instant is recorded). -/
def runState (m : Nat) : ProcState :=
  { jobs := [("a", runningJob "a" m)]
    queue := []
    stats := { QueueStats.initial with total_jobs := 1, running_jobs := 1 }
    running_jobs := [("a", 0)] }

/-- Fixture: the dispatch-time clone of a `DataExport` job, exactly as the
scheduler reads it from the map before sending it to a worker (status still
Queued; the worker only mutates the stored copy). -/
def exportJob : BatchJob :=
  BatchJob.new "d" (JobType.DataExport ["s1"] "csv" "/tmp/out") JobPriority.Normal 0

/-- Fixture state holding the queued `DataExport` job "d" at the moment the
scheduler pops it from the queue. -/
def exportDispatchState : ProcState :=
  { jobs := [("d", exportJob)]
    queue := []
    stats := { QueueStats.initial with total_jobs := 1, queued_jobs := 1 }
    running_jobs := [] }

/-- Fixture: a Running job far past its timeout (`timeout_seconds = 10`,
started at instant 0). -/
def timeoutJob : BatchJob :=
  { BatchJob.new "t" sampleType JobPriority.Normal 0 with
    status := JobStatus.Running
    started_at := some 0
    timeout_seconds := 10 }

/-- Fixture state holding only the timed-out Running job "t". -/
def timeoutState : ProcState :=
  { jobs := [("t", timeoutJob)]
    queue := []
    stats := { QueueStats.initial with total_jobs := 1, running_jobs := 1 }
    running_jobs := [("t", 0)] }

/-- Fixture: a fresh Queued job with `max_retries = 2` (the §8 retry
scenario). -/
def retryJob2 : BatchJob :=
  { BatchJob.new "r2" sampleType JobPriority.Normal 0 with max_retries := 2 }

/-- Fixture state holding only the queued job "r2". -/
def retryState2 : ProcState :=
  { jobs := [("r2", retryJob2)]
    queue := ["r2"]
    stats := { QueueStats.initial with total_jobs := 1, queued_jobs := 1 }
    running_jobs := [] }

/-- Fixture: a fresh Queued job with the default `max_retries = 3`. -/
def retryJob3 : BatchJob := BatchJob.new "c6" sampleType JobPriority.Normal 0

/-- Fixture state holding only the queued job "c6". -/
def retryState3 : ProcState :=
  { jobs := [("c6", retryJob3)]
    queue := ["c6"]
    stats := { QueueStats.initial with total_jobs := 1, queued_jobs := 1 }
    running_jobs := [] }

/-- Fixture state for the retry-then-cancel-then-cleanup run: job "x" is
Running. -/
def retryCancelState : ProcState :=
  { jobs := [("x", runningJob "x" 3)]
    queue := []
    stats := { QueueStats.initial with total_jobs := 1, running_jobs := 1 }
    running_jobs := [("x", 0)] }

/-- Fixture jobs for queue-insertion runs: one High and one Low priority job
already queued. -/
def highJob : BatchJob := BatchJob.new "h" sampleType JobPriority.High 0

/-- Fixture Low-priority job. -/
def lowJob : BatchJob := BatchJob.new "l" sampleType JobPriority.Low 0

/-- Fixture Normal-priority job to be submitted into `queueState`. -/
def normalJob : BatchJob := BatchJob.new "n" sampleType JobPriority.Normal 0

/-- Fixture state whose queue holds "h" (High) then "l" (Low). -/
def queueState : ProcState :=
  { jobs := [("h", highJob), ("l", lowJob)]
    queue := ["h", "l"]
    stats := { QueueStats.initial with total_jobs := 2, queued_jobs := 2, queue_length := 2 }
    running_jobs := [] }

/-- Fixture: a ready Queued job with no dependencies, sitting at the head of
the queue. -/
def readyState : ProcState :=
  { jobs := [("g", BatchJob.new "g" sampleType JobPriority.Normal 0)]
    queue := ["g"]
    stats := { QueueStats.initial with total_jobs := 1, queued_jobs := 1, queue_length := 1 }
    running_jobs := [] }

/-- Fixture configuration with `max_queue_size = 1` (the admission-bound
scenario of §8 scaled down). -/
def tinyCfg : BatchProcessorConfig :=
  { BatchProcessorConfig.mkDefault with max_queue_size := 1 }

/-- Fixture: the empty processor state built by `BatchProcessor::new`. -/
def emptyState : ProcState :=
  { jobs := []
    queue := []
    stats := QueueStats.initial
    running_jobs := [] }

/-- Fixture: a fresh Queued job used for the cancel-while-pending run. -/
def pendingJob : BatchJob := BatchJob.new "p" sampleType JobPriority.Normal 0

/-- Fixture state holding only the queued job "p". -/
def pendingState : ProcState :=
  { jobs := [("p", pendingJob)]
    queue := ["p"]
    stats := { QueueStats.initial with total_jobs := 1, queued_jobs := 1, queue_length := 1 }
    running_jobs := [] }

/-- C1: the claim says a `Retry` outcome with retries remaining re-inserts the
job id into the Priority Queue. On the code it does not: applying the `Retry`
outcome to the Running job "a" (`retry_count` 0, `max_retries` 3, queue empty
because the scheduler popped the id at dispatch) sets the stored job back to
Queued with `retry_count` 1, but the queue stays empty — the id is in no
queue, so the job can never be dispatched again. -/
theorem c1_retry_not_requeued :
    ((alLookup (applyOutcome "a" (JobResult.Retry "transient") 5 1 (runState 3)).jobs "a").map
        BatchJob.status = some JobStatus.Queued) ∧
    ((alLookup (applyOutcome "a" (JobResult.Retry "transient") 5 1 (runState 3)).jobs "a").map
        BatchJob.retry_count = some 1) ∧
    (applyOutcome "a" (JobResult.Retry "transient") 5 1 (runState 3)).queue = [] := by
  decide

/-- C2 counterexample: with `max_retries = 2` and a handler that always
returns `Retry`, the job is already Failed after 2 execution attempts (with
`retry_count = 2`), not after the claimed `max_retries + 1 = 3`: the code
increments `retry_count` before the `retry_count < max_retries` test. -/
theorem c2_counterexample :
    ((alLookup (retryCycle "r2" "flaky" 1 retryState2).jobs "r2").map BatchJob.status =
      some JobStatus.Queued) ∧
    ((alLookup (retryCycle "r2" "flaky" 2 (retryCycle "r2" "flaky" 1 retryState2)).jobs
        "r2").map BatchJob.status = some JobStatus.Failed) ∧
    ((alLookup (retryCycle "r2" "flaky" 2 (retryCycle "r2" "flaky" 1 retryState2)).jobs
        "r2").map BatchJob.retry_count = some 2) := by
  decide

/-- C3: terminal immutability fails on the code. Cancelling the Running job
"a" marks it Cancelled (terminal), but when its handler outcome `Success`
arrives, the outcome block overwrites the stored status unconditionally and
the job ends up Completed. -/
theorem c3_terminal_overwritten :
    ((alLookup (cancel_job "a" (runState 3)).2.jobs "a").map BatchJob.status =
      some JobStatus.Cancelled) ∧
    ((alLookup (applyOutcome "a" (JobResult.Success (some "data")) 7 1
        (cancel_job "a" (runState 3)).2).jobs "a").map BatchJob.status =
      some JobStatus.Completed) := by
  decide

/-- C4: the executing handler does not poll live cancellation state. The
`DataExport` handler receives the dispatch-time clone `exportJob` (status
Queued); even after `cancel_job` marks the stored job Cancelled, the handler
— a pure function of its clone — returns `Success`, never `Cancel`. -/
theorem c4_snapshot_misses_cancellation :
    ((alLookup (cancel_job "d" (markRunning "d" 1 1 exportDispatchState)).2.jobs "d").map
        BatchJob.status = some JobStatus.Cancelled) ∧
    process_job_type exportJob = JobResult.Success (some "Exported 1 sessions to /tmp/out") ∧
    process_job_type exportJob ≠ JobResult.Cancel := by
  decide

/-- C5: no timeout enforcement exists. The job "t" has `timeout_seconds = 10`
and started at instant 0; a scheduler tick at time 100000 (far past the
timeout) leaves the whole state — in particular the job's Running status —
unchanged: the loop never consults `timeout_seconds` or the recorded start
instants. -/
theorem c5_no_timeout_enforcement :
    ((alLookup (schedulerTick 4 100000 100000 timeoutState).jobs "t").map BatchJob.status =
      some JobStatus.Running) ∧
    schedulerTick 4 100000 100000 timeoutState = timeoutState := by
  decide

/-- C6 counterexample: a `Retry` outcome with retries remaining returns the
job "c6" to the non-terminal Queued status, yet stamps
`completed_at = some 5` — contradicting the claim that `completed_at` is set
only on the transition into a terminal state. -/
theorem c6_counterexample :
    ((alLookup (retryCycle "c6" "io" 5 retryState3).jobs "c6").map BatchJob.status =
      some JobStatus.Queued) ∧
    ((alLookup (retryCycle "c6" "io" 5 retryState3).jobs "c6").map BatchJob.completed_at =
      some (some 5)) := by
  decide

/-- C10 counterexample: the Running job "x" gets a `Retry` outcome at time 5
(status back to Queued, `completed_at` stamped to 5), is then cancelled by
`cancel_job` while Queued, and is nevertheless removed by
`cleanup_completed_jobs` at time 100000 (cutoff 13600 > 5) — so a job
cancelled while Queued is not always retained. -/
theorem c10_counterexample :
    ((alLookup (applyOutcome "x" (JobResult.Retry "net") 5 0 retryCancelState).jobs "x").map
        BatchJob.status = some JobStatus.Queued) ∧
    ((alLookup (cancel_job "x"
        (applyOutcome "x" (JobResult.Retry "net") 5 0 retryCancelState)).2.jobs "x").map
        BatchJob.status = some JobStatus.Cancelled) ∧
    (cleanup_completed_jobs BatchProcessorConfig.mkDefault 100000
        (cancel_job "x" (applyOutcome "x" (JobResult.Retry "net") 5 0 retryCancelState)).2).1 =
      1 ∧
    alLookup (cleanup_completed_jobs BatchProcessorConfig.mkDefault 100000
        (cancel_job "x" (applyOutcome "x" (JobResult.Retry "net") 5 0
          retryCancelState)).2).2.jobs "x" = none := by
  decide

theorem alLookup_nil {β : Type} (k : String) : alLookup ([] : List (String × β)) k = none := rfl

theorem alLookup_cons {β : Type} (a : String) (b : β) (tl : List (String × β)) (k : String) :
    alLookup ((a, b) :: tl) k = if a == k then some b else alLookup tl k := by
  by_cases h : a == k
  · simp [alLookup, List.find?_cons_of_pos, h]
  · simp [alLookup, List.find?_cons_of_neg, h]

theorem alLookup_alUpdate_self {β : Type} (m : List (String × β)) (k : String) (f : β → β)
    (v : β) (h : alLookup m k = some v) : alLookup (alUpdate m k f) k = some (f v) := by
  induction m with
  | nil => simp [alLookup] at h
  | cons kv tl ih =>
    obtain ⟨a, b⟩ := kv
    by_cases hk : a == k
    · have ha : a = k := by simpa using hk
      rw [alLookup_cons, if_pos hk] at h
      simp only [alUpdate, List.map_cons, hk, if_pos]
      rw [alLookup_cons, if_pos (by simp [ha])]
      simp only [Option.some.injEq] at h
      rw [h]
    · rw [alLookup_cons, if_neg hk] at h
      simp only [alUpdate, List.map_cons, hk, if_neg, Bool.false_eq_true, ite_false]
      rw [alLookup_cons, if_neg hk]
      exact ih h

theorem alLookup_alUpdate_ne {β : Type} (m : List (String × β)) (k k' : String) (f : β → β)
    (h : k' ≠ k) : alLookup (alUpdate m k f) k' = alLookup m k' := by
  induction m with
  | nil => rfl
  | cons kv tl ih =>
    obtain ⟨a, b⟩ := kv
    by_cases hk : a == k
    · have ha : a = k := by simpa using hk
      have hne : ¬ (a == k') := by simp [ha]; exact fun hh => h hh.symm
      simp only [alUpdate, List.map_cons, hk, if_pos]
      rw [alLookup_cons, alLookup_cons, if_neg (by simpa [ha] using hne), if_neg hne]
      exact ih
    · simp only [alUpdate, List.map_cons, hk, Bool.false_eq_true, ite_false]
      rw [alLookup_cons, alLookup_cons]
      by_cases hk' : a == k'
      · simp [hk']
      · simp only [hk', Bool.false_eq_true, ite_false]
        exact ih

theorem alLookup_append {β : Type} (m₁ m₂ : List (String × β)) (k : String) :
    alLookup (m₁ ++ m₂) k = (alLookup m₁ k).orElse (fun _ => alLookup m₂ k) := by
  induction m₁ with
  | nil => simp [alLookup_nil, Option.orElse]
  | cons kv tl ih =>
    obtain ⟨a, b⟩ := kv
    by_cases hk : a == k
    · rw [List.cons_append, alLookup_cons, alLookup_cons, if_pos hk, if_pos hk]
      rfl
    · rw [List.cons_append, alLookup_cons, alLookup_cons, if_neg hk, if_neg hk]
      exact ih

theorem alLookup_map_replace {β : Type} (m : List (String × β)) (k : String) (v : β) :
    alLookup (m.map (fun kv => if kv.1 == k then (k, v) else kv)) k =
      if m.any (fun kv => kv.1 == k) then some v else none := by
  induction m with
  | nil => simp [alLookup_nil]
  | cons kv tl ih =>
    obtain ⟨a, b⟩ := kv
    by_cases hk : a == k
    · simp only [List.map_cons, hk, if_pos, List.any_cons, Bool.true_or]
      rw [alLookup_cons, if_pos (by simp)]
    · simp only [List.map_cons, hk, Bool.false_eq_true, ite_false, List.any_cons,
        Bool.false_or]
      rw [alLookup_cons, if_neg hk]
      exact ih

theorem alLookup_alInsert_self {β : Type} (m : List (String × β)) (k : String) (v : β) :
    alLookup (alInsert m k v) k = some v := by
  unfold alInsert
  by_cases hany : m.any (fun kv => kv.1 == k)
  · rw [if_pos hany, alLookup_map_replace, if_pos hany]
  · rw [if_neg hany, alLookup_append]
    have hnone : alLookup m k = none := by
      simp only [List.any_eq_true, not_exists, not_and] at hany
      induction m with
      | nil => rfl
      | cons kv tl ih =>
        obtain ⟨a, b⟩ := kv
        rw [alLookup_cons, if_neg (hany (a, b) (by simp))]
        exact ih (fun kv hkv => hany kv (List.mem_cons_of_mem _ hkv))
    rw [hnone]
    simp [alLookup_cons, Option.orElse]

theorem alLookup_alInsert_ne {β : Type} (m : List (String × β)) (k k' : String) (v : β)
    (h : k' ≠ k) : alLookup (alInsert m k v) k' = alLookup m k' := by
  unfold alInsert
  by_cases hany : m.any (fun kv => kv.1 == k)
  · rw [if_pos hany]
    induction m with
    | nil => rfl
    | cons kv tl ih =>
      obtain ⟨a, b⟩ := kv
      by_cases hk : a == k
      · have ha : a = k := by simpa using hk
        have hne : ¬ (k == k') := by simp; exact fun hh => h hh.symm
        simp only [List.map_cons, hk, if_pos]
        rw [alLookup_cons, alLookup_cons, if_neg hne, if_neg (by simpa [ha] using hne)]
        by_cases htl : tl.any (fun kv => kv.1 == k)
        · exact ih htl
        · have hmap : tl.map (fun kv => if kv.1 == k then (k, v) else kv) = tl := by
            conv_rhs => rw [← List.map_id tl]
            apply List.map_congr_left
            intro kv hkv
            have hno : ¬ ((kv.1 == k) = true) := by
              simp only [List.any_eq_true, not_exists, not_and] at htl
              intro hc
              exact htl kv hkv hc
            simp [hno]
          rw [hmap]
      · simp only [List.map_cons, hk, Bool.false_eq_true, ite_false]
        rw [alLookup_cons, alLookup_cons]
        by_cases hk' : a == k'
        · simp [hk']
        · simp only [hk', Bool.false_eq_true, ite_false]
          have htl : tl.any (fun kv => kv.1 == k) := by
            simp only [List.any_cons, hk, Bool.false_or] at hany
            exact hany
          exact ih htl
  · rw [if_neg hany, alLookup_append]
    have hlast : alLookup [(k, v)] k' = none := by
      rw [alLookup_cons, if_neg (by simp; exact fun hh => h hh.symm)]
      rfl
    rw [hlast]
    cases hm : alLookup m k' <;> simp [Option.orElse]

theorem alLookup_alRemove_ne {β : Type} (m : List (String × β)) (k k' : String)
    (h : k' ≠ k) : alLookup (alRemove m k) k' = alLookup m k' := by
  induction m with
  | nil => rfl
  | cons kv tl ih =>
    obtain ⟨a, b⟩ := kv
    simp only [alRemove, List.filter_cons]
    by_cases hk : a = k
    · have hb : ((a, b).1 != k) = false := by simp [hk]
      rw [hb]
      have hne : ¬ ((a == k') = true) := by
        simp only [hk, beq_iff_eq]
        exact fun hh => h hh.symm
      simp only [Bool.false_eq_true, ite_false]
      rw [alLookup_cons, if_neg hne]
      exact ih
    · have hb : ((a, b).1 != k) = true := by simp [hk]
      rw [hb]
      simp only [ite_true]
      rw [alLookup_cons, alLookup_cons]
      by_cases hk' : a == k'
      · simp only [hk', ite_true]
      · simp only [hk', Bool.false_eq_true, ite_false]
        exact ih

theorem removeJobs_lookup_notmem (ids : List String) (m : List (String × BatchJob))
    (st : QueueStats) (k : String) (h : k ∉ ids) :
    alLookup (removeJobs ids m st).1 k = alLookup m k := by
  induction ids generalizing m st with
  | nil => rfl
  | cons id rest ih =>
    have hk : k ≠ id := fun hh => h (hh ▸ List.mem_cons_self id rest)
    have hrest : k ∉ rest := fun hh => h (List.mem_cons_of_mem _ hh)
    unfold removeJobs
    cases hl : alLookup m id with
    | none => exact ih _ _ hrest
    | some job => exact (ih _ _ hrest).trans (alLookup_alRemove_ne _ _ _ hk)

theorem keys_alUpdate {β : Type} (m : List (String × β)) (k : String) (f : β → β) :
    (alUpdate m k f).map Prod.fst = m.map Prod.fst := by
  induction m with
  | nil => rfl
  | cons kv tl ih =>
    simp only [alUpdate, List.map_cons]
    by_cases hk : (kv.1 == k) = true
    · rw [if_pos hk]
      exact congrArg (kv.1 :: ·) ih
    · rw [if_neg hk]
      exact congrArg (kv.1 :: ·) ih

theorem alLookup_of_mem_nodup {β : Type} (m : List (String × β)) (kv : String × β)
    (hnd : (m.map Prod.fst).Nodup) (hm : kv ∈ m) : alLookup m kv.1 = some kv.2 := by
  induction m with
  | nil => cases hm
  | cons hd tl ih =>
    obtain ⟨a, b⟩ := hd
    rw [List.map_cons] at hnd
    have hnd' := List.nodup_cons.mp hnd
    rcases List.mem_cons.mp hm with rfl | hm'
    · rw [alLookup_cons, if_pos (by simp)]
    · have hne : a ≠ kv.1 := by
        intro hh
        have hmem : kv.1 ∈ tl.map Prod.fst := List.mem_map_of_mem Prod.fst hm'
        exact hnd'.1 (by rw [hh]; exact hmem)
      rw [alLookup_cons, if_neg (by simp [hne])]
      exact ih hnd'.2 hm'

/-- C10 (amended): a job cancelled by `cancel_job` while Queued with
`completed_at` still `None` — in particular any job that was never dispatched
to a worker — becomes Cancelled with `completed_at` unchanged (`cancel_job`
never writes `completed_at`), and since the removal filter of
`cleanup_completed_jobs` demands a `Some` `completed_at` older than the
cutoff, no cleanup ever removes it: it stays in the tracked job map (and so
keeps counting against `max_queue_size`) indefinitely. A job that returned to
Queued through a Retry outcome, however, carries a stamped `completed_at`
and can be removed (see the counterexample). -/
theorem c10_amended (s : ProcState) (id : String) (j : BatchJob)
    (hnd : (s.jobs.map Prod.fst).Nodup)
    (h : alLookup s.jobs id = some j) (hq : j.status = JobStatus.Queued)
    (hc : j.completed_at = none) :
    alLookup (cancel_job id s).2.jobs id = some { j with status := JobStatus.Cancelled } ∧
    (∀ cfg now,
      alLookup (cleanup_completed_jobs cfg now (cancel_job id s).2).2.jobs id =
        some { j with status := JobStatus.Cancelled }) := by
  have hstate : (cancel_job id s).2.jobs =
      alUpdate s.jobs id (fun jj => { jj with status := JobStatus.Cancelled }) := by
    simp only [cancel_job, h, hq]
  have hlook : alLookup (cancel_job id s).2.jobs id =
      some { j with status := JobStatus.Cancelled } := by
    rw [hstate]
    exact alLookup_alUpdate_self _ _ _ _ h
  refine ⟨hlook, ?_⟩
  intro cfg now
  have hnd' : ((cancel_job id s).2.jobs.map Prod.fst).Nodup := by
    rw [hstate, keys_alUpdate]
    exact hnd
  simp only [cleanup_completed_jobs]
  set cutoff := now - cfg.cleanup_completed_jobs_after_hours * 3600 with hcut
  have hnotmem : id ∉ ((cancel_job id s).2.jobs.filter
      (fun kv => cleanupFilter cutoff kv.2)).map (·.1) := by
    intro hmem
    obtain ⟨kv, hkv, hkid⟩ := List.mem_map.mp hmem
    have hkv' := List.mem_filter.mp hkv
    have hlk := alLookup_of_mem_nodup _ kv hnd' hkv'.1
    rw [hkid, hlook] at hlk
    have hk2 : kv.2 = { j with status := JobStatus.Cancelled } := by
      simpa using hlk.symm
    have hfilter := hkv'.2
    rw [hk2] at hfilter
    simp [cleanupFilter, hc] at hfilter
  exact (removeJobs_lookup_notmem _ _ _ _ hnotmem).trans hlook

/-- Closed witness for the amended C10: the never-dispatched queued job "p"
is cancelled and survives a cleanup pass arbitrarily far in the future. -/
theorem c10_amended_witness :
    alLookup (cleanup_completed_jobs BatchProcessorConfig.mkDefault 1000000
        (cancel_job "p" pendingState).2).2.jobs "p" =
      some { pendingJob with status := JobStatus.Cancelled } := by
  exact (c10_amended pendingState "p" pendingJob (by decide) (by decide) (by decide)
    (by decide)).2 BatchProcessorConfig.mkDefault 1000000

theorem retryCycle_lookup (id r : String) (now : Nat) (s : ProcState) (j : BatchJob)
    (h : alLookup s.jobs id = some j) :
    alLookup (retryCycle id r now s).jobs id = some (retryJobStep r now j) := by
  have h1 : alLookup (markRunning id now now s).jobs id =
      some { j with status := JobStatus.Running, started_at := some now } := by
    simp only [markRunning]
    exact alLookup_alUpdate_self _ _ _ _ h
  simp only [retryCycle, applyOutcome, h1, retryJobStep]
  by_cases hrc : j.retry_count + 1 < j.max_retries
  · simp only [hrc, if_true]
    exact alLookup_alUpdate_self _ _ _ _ h1
  · simp only [hrc, if_false]
    exact alLookup_alUpdate_self _ _ _ _ h1

theorem retryJobStep_fixed (r : String) (now : Nat) (j : BatchJob) :
    (retryJobStep r now j).retry_count = j.retry_count + 1 ∧
    (retryJobStep r now j).max_retries = j.max_retries := by
  unfold retryJobStep
  by_cases hc : j.retry_count + 1 < j.max_retries
  · simp [hc]
  · simp [hc]

theorem retryJobStep_status (r : String) (now : Nat) (j : BatchJob) :
    (retryJobStep r now j).status =
      (if j.retry_count + 1 < j.max_retries then JobStatus.Queued else JobStatus.Failed) ∧
    (retryJobStep r now j).error_message =
      some (if j.retry_count + 1 < j.max_retries then r else "Max retries exceeded: " ++ r) := by
  unfold retryJobStep
  by_cases hc : j.retry_count + 1 < j.max_retries
  · simp [hc]
  · simp [hc]

theorem retryJobStep_iterate_fixed (r : String) (now : Nat) (j : BatchJob) (i : Nat) :
    ((retryJobStep r now)^[i] j).retry_count = j.retry_count + i ∧
    ((retryJobStep r now)^[i] j).max_retries = j.max_retries := by
  induction i with
  | zero => simp
  | succ n ih =>
    rw [Function.iterate_succ_apply']
    have hstep := retryJobStep_fixed r now ((retryJobStep r now)^[n] j)
    rw [hstep.1, hstep.2, ih.1, ih.2]
    exact ⟨by omega, rfl⟩

theorem retryJobStep_iterate_status (r : String) (now : Nat) (j : BatchJob)
    (h0 : j.retry_count = 0) (n : Nat) :
    ((retryJobStep r now)^[n + 1] j).status =
      (if n + 1 < j.max_retries then JobStatus.Queued else JobStatus.Failed) ∧
    ((retryJobStep r now)^[n + 1] j).error_message =
      some (if n + 1 < j.max_retries then r else "Max retries exceeded: " ++ r) := by
  rw [Function.iterate_succ_apply']
  have hfix := retryJobStep_iterate_fixed r now j n
  have hst := retryJobStep_status r now ((retryJobStep r now)^[n] j)
  rw [hfix.1, hfix.2, h0] at hst
  simpa using hst

theorem retryCycle_iterate (id r : String) (now : Nat) (s : ProcState) (j : BatchJob)
    (h : alLookup s.jobs id = some j) (i : Nat) :
    alLookup ((retryCycle id r now)^[i] s).jobs id = some ((retryJobStep r now)^[i] j) := by
  induction i generalizing s j with
  | zero => simpa
  | succ n ih =>
    rw [Function.iterate_succ_apply, Function.iterate_succ_apply]
    exact ih _ _ (retryCycle_lookup id r now s j h)

/-- C2 (amended): a job whose handler always returns Retry reaches terminal
Failed after exactly `max(max_retries, 1)` execution attempts (the code
increments `retry_count` before comparing it with `<` against
`max_retries`), never more: every earlier attempt leaves it Queued, and at
attempt `max(max_retries, 1)` it is Failed with
`retry_count = max(max_retries, 1)` and an error message of the form
"Max retries exceeded: …". In particular with `max_retries = 2` the final
status is Failed after 2 total attempts with `retry_count = 2`. -/
theorem c2_amended (s : ProcState) (id r : String) (now : Nat) (j : BatchJob)
    (h : alLookup s.jobs id = some j) (h0 : j.retry_count = 0) :
    (∀ i, 1 ≤ i → i < j.max_retries →
      (alLookup ((retryCycle id r now)^[i] s).jobs id).map BatchJob.status =
        some JobStatus.Queued) ∧
    ((alLookup ((retryCycle id r now)^[max j.max_retries 1] s).jobs id).map
        BatchJob.status = some JobStatus.Failed) ∧
    ((alLookup ((retryCycle id r now)^[max j.max_retries 1] s).jobs id).map
        BatchJob.retry_count = some (max j.max_retries 1)) ∧
    ((alLookup ((retryCycle id r now)^[max j.max_retries 1] s).jobs id).map
        BatchJob.error_message = some (some ("Max retries exceeded: " ++ r))) := by
  have hmax1 : 1 ≤ max j.max_retries 1 := Nat.le_max_right _ _
  have hmaxm : j.max_retries ≤ max j.max_retries 1 := Nat.le_max_left _ _
  have hsplit : ∃ n, max j.max_retries 1 = n + 1 :=
    ⟨max j.max_retries 1 - 1, by omega⟩
  refine ⟨?_, ?_, ?_, ?_⟩
  · intro i h1 hlt
    obtain ⟨n, rfl⟩ := Nat.exists_eq_add_of_le h1
    rw [Nat.add_comm 1 n, retryCycle_iterate id r now s j h, Option.map_some',
      (retryJobStep_iterate_status r now j h0 n).1, if_pos (by omega)]
  · obtain ⟨n, hn⟩ := hsplit
    rw [hn, retryCycle_iterate id r now s j h, Option.map_some',
      (retryJobStep_iterate_status r now j h0 n).1, if_neg (by omega)]
  · rw [retryCycle_iterate id r now s j h, Option.map_some',
      (retryJobStep_iterate_fixed r now j _).1, h0, Nat.zero_add]
  · obtain ⟨n, hn⟩ := hsplit
    rw [hn, retryCycle_iterate id r now s j h, Option.map_some',
      (retryJobStep_iterate_status r now j h0 n).2, if_neg (by omega)]

/-- Closed witness for the amended C2: the fresh job "r2" with
`max_retries = 2` is Failed after `max(2, 1) = 2` retry attempts. -/
theorem c2_amended_witness :
    (alLookup ((retryCycle "r2" "flaky" 9)^[max retryJob2.max_retries 1]
        retryState2).jobs "r2").map BatchJob.status = some JobStatus.Failed := by
  exact (c2_amended retryState2 "r2" "flaky" 9 retryJob2 (by decide) (by decide)).2.1

theorem mem_insertQueue (jobs : List (String × BatchJob)) (p : JobPriority) (jid : String)
    (q : List String) (x : String) :
    x ∈ insertQueue jobs p jid q ↔ x = jid ∨ x ∈ q := by
  induction q with
  | nil => simp [insertQueue]
  | cons y ys ih =>
    unfold insertQueue
    cases hy : alLookup jobs y with
    | none =>
      simp only [List.mem_cons, ih]
      tauto
    | some yj =>
      by_cases hlt : yj.priority.rank < p.rank
      · simp only [if_pos hlt, List.mem_cons]
      · simp only [if_neg hlt, List.mem_cons, ih]
        tauto

theorem insertQueue_eq_takeWhile_dropWhile (jobs : List (String × BatchJob)) (p : JobPriority)
    (jid : String) (q : List String) :
    insertQueue jobs p jid q =
      q.takeWhile (fun x => !(lowerThan jobs p x)) ++
        jid :: q.dropWhile (fun x => !(lowerThan jobs p x)) := by
  induction q with
  | nil => simp [insertQueue]
  | cons y ys ih =>
    unfold insertQueue
    cases hy : alLookup jobs y with
    | none =>
      have hl : lowerThan jobs p y = false := by simp [lowerThan, hy]
      rw [List.takeWhile_cons, List.dropWhile_cons]
      simp only [hl, Bool.not_false, ite_true, List.cons_append]
      exact congrArg (y :: ·) ih
    | some yj =>
      by_cases hlt : yj.priority.rank < p.rank
      · have hl : lowerThan jobs p y = true := by simp [lowerThan, hy, hlt]
        rw [List.takeWhile_cons, List.dropWhile_cons]
        simp [hl, hlt]
      · have hl : lowerThan jobs p y = false := by simp [lowerThan, hy, hlt]
        rw [List.takeWhile_cons, List.dropWhile_cons]
        simp only [hl, Bool.not_false, ite_true, List.cons_append, if_neg hlt]
        exact congrArg (y :: ·) ih

theorem rankOk_some_some (jobs : List (String × BatchJob)) (a b : String)
    (pa pb : JobPriority) (ha : prioOf jobs a = some pa) (hb : prioOf jobs b = some pb) :
    (rankOk (prioOf jobs a) (prioOf jobs b) = true) ↔ pb.rank ≤ pa.rank := by
  rw [ha, hb]
  simp [rankOk]

theorem rankOk_left_none (jobs : List (String × BatchJob)) (a b : String)
    (ha : prioOf jobs a = none) : rankOk (prioOf jobs a) (prioOf jobs b) = true := by
  rw [ha]
  rfl

theorem rankOk_right_none (jobs : List (String × BatchJob)) (a b : String)
    (hb : prioOf jobs b = none) : rankOk (prioOf jobs a) (prioOf jobs b) = true := by
  rw [hb]
  unfold rankOk
  cases prioOf jobs a <;> rfl

theorem insertQueue_sorted (jobs : List (String × BatchJob)) (p : JobPriority) (jid : String)
    (q : List String) (hj : prioOf jobs jid = some p) (hs : QueueSorted jobs q) :
    QueueSorted jobs (insertQueue jobs p jid q) := by
  induction q with
  | nil =>
    simp [insertQueue, QueueSorted]
  | cons y ys ih =>
    rw [QueueSorted, List.pairwise_cons] at hs
    obtain ⟨hy_rest, hys⟩ := hs
    unfold insertQueue
    cases hy : alLookup jobs y with
    | none =>
      have hpy : prioOf jobs y = none := by simp [prioOf, hy]
      rw [QueueSorted, List.pairwise_cons]
      refine ⟨?_, ih hys⟩
      intro b hb
      rcases (mem_insertQueue jobs p jid ys b).mp hb with rfl | hb'
      · exact rankOk_left_none jobs y b hpy
      · exact hy_rest b hb'
    | some yj =>
      have hpy : prioOf jobs y = some yj.priority := by simp [prioOf, hy]
      by_cases hlt : yj.priority.rank < p.rank
      · unfold QueueSorted
        simp only [if_pos hlt]
        rw [List.pairwise_cons]
        refine ⟨?_, ?_⟩
        · intro b hb
          rcases List.mem_cons.mp hb with rfl | hb'
          · exact (rankOk_some_some jobs jid b p yj.priority hj hpy).mpr (Nat.le_of_lt hlt)
          · have hyb := hy_rest b hb'
            cases hb2 : prioOf jobs b with
            | none =>
              rw [← hb2]
              exact rankOk_right_none jobs jid b hb2
            | some pb =>
              have h1 : pb.rank ≤ yj.priority.rank :=
                (rankOk_some_some jobs y b yj.priority pb hpy hb2).mp hyb
              rw [← hb2]
              exact (rankOk_some_some jobs jid b p pb hj hb2).mpr
                (Nat.le_trans h1 (Nat.le_of_lt hlt))
        · rw [List.pairwise_cons]
          exact ⟨hy_rest, hys⟩
      · unfold QueueSorted
        simp only [if_neg hlt]
        rw [List.pairwise_cons]
        refine ⟨?_, ih hys⟩
        intro b hb
        rcases (mem_insertQueue jobs p jid ys b).mp hb with rfl | hb'
        · exact (rankOk_some_some jobs y b yj.priority p hpy hj).mpr (Nat.le_of_not_lt hlt)
        · exact hy_rest b hb'

/-- C7: priority queue insertion. (a) `insertQueue` places the new id exactly
before the first queued id whose job's priority is strictly lower (ids whose
lookup fails are scanned past), appending at the back when none exists;
(b) insertion preserves the non-increasing-priority ordering of the queue;
(c) every id left in front of the new one has priority at least the new
job's — equal-priority peers keep their earlier (FIFO) position; (d) an
accepted `submit_job` with `priority_scheduling` enabled builds its queue by
exactly this insertion into the updated job map; (e) with
`priority_scheduling` disabled it is a plain FIFO append. -/
theorem c7_priority_insertion :
    (∀ (jobs : List (String × BatchJob)) (p : JobPriority) (jid : String) (q : List String),
      insertQueue jobs p jid q =
        q.takeWhile (fun x => !(lowerThan jobs p x)) ++
          jid :: q.dropWhile (fun x => !(lowerThan jobs p x))) ∧
    (∀ (jobs : List (String × BatchJob)) (p : JobPriority) (jid : String) (q : List String),
      prioOf jobs jid = some p → QueueSorted jobs q →
        QueueSorted jobs (insertQueue jobs p jid q)) ∧
    (∀ (jobs : List (String × BatchJob)) (p : JobPriority) (q : List String) (x : String),
      x ∈ q.takeWhile (fun x => !(lowerThan jobs p x)) →
        ∀ px, prioOf jobs x = some px → p.rank ≤ px.rank) ∧
    (∀ (cfg : BatchProcessorConfig) (job : BatchJob) (s : ProcState),
      cfg.priority_scheduling = true → s.jobs.length < cfg.max_queue_size →
        (submit_job cfg job s).2.queue =
          insertQueue (alInsert s.jobs job.id { job with status := JobStatus.Queued })
            job.priority job.id s.queue) ∧
    (∀ (cfg : BatchProcessorConfig) (job : BatchJob) (s : ProcState),
      cfg.priority_scheduling = false → s.jobs.length < cfg.max_queue_size →
        (submit_job cfg job s).2.queue = s.queue ++ [job.id]) := by
  refine ⟨insertQueue_eq_takeWhile_dropWhile, insertQueue_sorted, ?_, ?_, ?_⟩
  · intro jobs p q x hx px hpx
    have hcond := List.mem_takeWhile_imp hx
    simp only [Bool.not_eq_true'] at hcond
    simp only [lowerThan] at hcond
    cases hb : alLookup jobs x with
    | none =>
      rw [prioOf, hb] at hpx
      cases hpx
    | some xj =>
      rw [hb] at hcond
      rw [prioOf, hb, Option.map_some'] at hpx
      cases hpx
      simpa using hcond
  · intro cfg job s hps hlen
    simp only [submit_job, if_neg (Nat.not_le.mpr hlen), hps, ite_true]
  · intro cfg job s hps hlen
    simp only [submit_job, if_neg (Nat.not_le.mpr hlen), hps, Bool.false_eq_true, ite_false]

/-- Closed witness for C7: submitting the Normal-priority job "n" into a
queue holding High "h" then Low "l" lands it between them (and the resulting
priority sequence is still non-increasing); with priority scheduling
disabled the same submission appends at the back. -/
theorem c7_priority_insertion_witness :
    (submit_job BatchProcessorConfig.mkDefault normalJob queueState).2.queue =
      ["h", "n", "l"] ∧
    QueueSorted (alInsert queueState.jobs "n" { normalJob with status := JobStatus.Queued })
      ["h", "n", "l"] ∧
    (submit_job { BatchProcessorConfig.mkDefault with priority_scheduling := false }
        normalJob queueState).2.queue = ["h", "l", "n"] := by
  refine ⟨?_, ?_, ?_⟩
  · exact (c7_priority_insertion.2.2.2.1 BatchProcessorConfig.mkDefault normalJob queueState
      rfl (by decide)).trans (by decide)
  · have h := c7_priority_insertion.2.1
      (alInsert queueState.jobs "n" { normalJob with status := JobStatus.Queued })
      JobPriority.Normal "n" ["h", "l"] (by decide) (by unfold QueueSorted; decide)
    have heq : insertQueue
        (alInsert queueState.jobs "n" { normalJob with status := JobStatus.Queued })
        JobPriority.Normal "n" ["h", "l"] = ["h", "n", "l"] := by decide
    rw [heq] at h
    exact h
  · exact (c7_priority_insertion.2.2.2.2
      { BatchProcessorConfig.mkDefault with priority_scheduling := false } normalJob
      queueState rfl (by decide)).trans (by decide)

/-- C6 (amended): `completed_at` is stamped by the outcome block on every
handler outcome of a still-tracked job — not only on transitions into a
terminal state. In particular a Retry outcome with retries remaining, which
returns the job to the non-terminal Queued status, still sets
`completed_at` to the outcome-processing time, and a later outcome
overwrites it. (`cancel_job` itself never writes `completed_at`.) -/
theorem c6_amended (s : ProcState) (id : String) (result : JobResult) (now : Nat) (pt : ℚ)
    (j : BatchJob) (h : alLookup s.jobs id = some j) :
    ∃ j', alLookup (applyOutcome id result now pt s).jobs id = some j' ∧
      j'.completed_at = some now ∧
      (∀ r, result = JobResult.Retry r → j.retry_count + 1 < j.max_retries →
        j'.status = JobStatus.Queued) := by
  cases result with
  | Success data =>
    refine ⟨{ j with
        completed_at := some now
        status := JobStatus.Completed
        result_data := data
        progress := { j.progress with percentage := 100 } }, ?_, rfl, ?_⟩
    · simp only [applyOutcome, h]
      exact alLookup_alUpdate_self _ _ _ _ h
    · intro r hr
      cases hr
  | Failure error =>
    refine ⟨{ j with
        completed_at := some now
        status := JobStatus.Failed
        error_message := some error }, ?_, rfl, ?_⟩
    · simp only [applyOutcome, h]
      exact alLookup_alUpdate_self _ _ _ _ h
    · intro r hr
      cases hr
  | Retry reason =>
    by_cases hrc : j.retry_count + 1 < j.max_retries
    · refine ⟨{ j with
          completed_at := some now
          retry_count := j.retry_count + 1
          status := JobStatus.Queued
          error_message := some reason }, ?_, rfl, ?_⟩
      · simp only [applyOutcome, h, hrc, if_true]
        exact alLookup_alUpdate_self _ _ _ _ h
      · intro r hr hlt
        rfl
    · refine ⟨{ j with
          completed_at := some now
          retry_count := j.retry_count + 1
          status := JobStatus.Failed
          error_message := some ("Max retries exceeded: " ++ reason) }, ?_, rfl, ?_⟩
      · simp only [applyOutcome, h, hrc, if_false]
        exact alLookup_alUpdate_self _ _ _ _ h
      · intro r hr hlt
        exact absurd hlt hrc
  | Cancel =>
    refine ⟨{ j with
        completed_at := some now
        status := JobStatus.Cancelled }, ?_, rfl, ?_⟩
    · simp only [applyOutcome, h]
      exact alLookup_alUpdate_self _ _ _ _ h
    · intro r hr
      cases hr

/-- Closed witness for the amended C6: applying a Retry outcome to the
tracked job "c6" yields a record whose `completed_at` is the outcome time. -/
theorem c6_amended_witness :
    ∃ j', alLookup (applyOutcome "c6" (JobResult.Retry "io") 5 0 retryState3).jobs "c6" =
        some j' ∧ j'.completed_at = some 5 := by
  obtain ⟨j', h1, h2, h3⟩ :=
    c6_amended retryState3 "c6" (JobResult.Retry "io") 5 0 retryJob3 (by decide)
  exact ⟨j', h1, h2⟩

/-- C8: admission control. `submit_job` fails with the "Job queue is full"
error exactly when the tracked-job map already holds at least
`max_queue_size` records (all statuses count, not only pending ones); on
rejection the entire state — job map, queue, statistics — is returned
untouched; on acceptance the job id is returned and the job is stored with
status Queued. -/
theorem c8_admission_bound (cfg : BatchProcessorConfig) (job : BatchJob) (s : ProcState) :
    ((submit_job cfg job s).1 = Except.error "Job queue is full" ↔
      s.jobs.length ≥ cfg.max_queue_size) ∧
    (s.jobs.length ≥ cfg.max_queue_size → (submit_job cfg job s).2 = s) ∧
    (s.jobs.length < cfg.max_queue_size →
      (submit_job cfg job s).1 = Except.ok job.id ∧
      alLookup (submit_job cfg job s).2.jobs job.id =
        some { job with status := JobStatus.Queued }) := by
  by_cases hfull : s.jobs.length ≥ cfg.max_queue_size
  · have hsub : submit_job cfg job s = (Except.error "Job queue is full", s) := by
      unfold submit_job
      rw [if_pos hfull]
    rw [hsub]
    exact ⟨⟨fun _ => hfull, fun _ => rfl⟩, fun _ => rfl,
      fun hlt => absurd hfull (by omega)⟩
  · have hok : (submit_job cfg job s).1 = Except.ok job.id := by
      unfold submit_job
      rw [if_neg hfull]
    have hstore : alLookup (submit_job cfg job s).2.jobs job.id =
        some { job with status := JobStatus.Queued } := by
      have hjobs : (submit_job cfg job s).2.jobs =
          alInsert s.jobs job.id { job with status := JobStatus.Queued } := by
        unfold submit_job
        rw [if_neg hfull]
      rw [hjobs]
      exact alLookup_alInsert_self _ _ _
    refine ⟨⟨fun herr => ?_, fun hge => absurd hge hfull⟩, fun hge => absurd hge hfull,
      fun _ => ⟨hok, hstore⟩⟩
    rw [hok] at herr
    cases herr

/-- Closed witness for C8: with `max_queue_size = 1`, the first submission is
accepted (stored Queued under its id) and the second is rejected with the
queue-full error. -/
theorem c8_admission_bound_witness :
    (submit_job tinyCfg highJob emptyState).1 = Except.ok "h" ∧
    (submit_job tinyCfg lowJob (submit_job tinyCfg highJob emptyState).2).1 =
      Except.error "Job queue is full" := by
  constructor
  · exact ((c8_admission_bound tinyCfg highJob emptyState).2.2 (by decide)).1
  · exact (c8_admission_bound tinyCfg lowJob
      (submit_job tinyCfg highJob emptyState).2).1.mpr (by decide)

theorem schedulerTick_cases (mc now ni : Nat) (s : ProcState) :
    schedulerTick mc now ni s = s ∨
    (∃ job_id rest, s.queue = job_id :: rest ∧
      schedulerTick mc now ni s = { s with queue := rest }) ∨
    (∃ job_id rest job, s.queue = job_id :: rest ∧ alLookup s.jobs job_id = some job ∧
      job.is_ready_to_run s.jobs = true ∧
      schedulerTick mc now ni s = markRunning job_id now ni { s with queue := rest }) ∨
    (∃ job_id rest job, s.queue = job_id :: rest ∧ alLookup s.jobs job_id = some job ∧
      ¬ job.is_ready_to_run s.jobs = true ∧
      schedulerTick mc now ni s = { s with queue := rest ++ [job_id] }) := by
  by_cases hcap : s.running_jobs.length ≥ mc
  · left
    simp [schedulerTick, hcap]
  · cases hq : s.queue with
    | nil =>
      left
      simp [schedulerTick, hcap, hq]
    | cons job_id rest =>
      cases hl : alLookup s.jobs job_id with
      | none =>
        right; left
        exact ⟨job_id, rest, rfl, by simp [schedulerTick, hcap, hq, hl]⟩
      | some job =>
        by_cases hready : job.is_ready_to_run s.jobs = true
        · right; right; left
          exact ⟨job_id, rest, job, rfl, hl, hready,
            by simp [schedulerTick, hcap, hq, hl, hready]⟩
        · right; right; right
          exact ⟨job_id, rest, job, rfl, hl, hready,
            by simp [schedulerTick, hcap, hq, hl, hready]⟩

/-- C9: dependency gating. (1) `is_ready_to_run` holds exactly when the job
is Queued and every dependency id resolves in the snapshot to a job whose
status is Completed; (2) one scheduler tick moves a job into Running only if
`is_ready_to_run` held for it on the pre-tick job map — so jobs with unmet
dependencies are never dispatched. -/
theorem c9_dependency_gating :
    (∀ (job : BatchJob) (snapshot : List (String × BatchJob)),
      job.is_ready_to_run snapshot = true ↔
        (job.status = JobStatus.Queued ∧
          ∀ dep_id ∈ job.dependencies, ∃ dep_job,
            alLookup snapshot dep_id = some dep_job ∧
              dep_job.status = JobStatus.Completed)) ∧
    (∀ (max_concurrent now now_instant : Nat) (s : ProcState) (id : String) (j j' : BatchJob),
      alLookup s.jobs id = some j → j.status ≠ JobStatus.Running →
      alLookup (schedulerTick max_concurrent now now_instant s).jobs id = some j' →
      j'.status = JobStatus.Running →
      j.is_ready_to_run s.jobs = true) := by
  constructor
  · intro job snapshot
    unfold BatchJob.is_ready_to_run
    by_cases hst : job.status = JobStatus.Queued
    · rw [if_neg (by simp [hst])]
      rw [List.all_eq_true]
      constructor
      · intro hall
        refine ⟨hst, ?_⟩
        intro dep_id hdep
        have hd := hall dep_id hdep
        cases hl : alLookup snapshot dep_id with
        | none =>
          rw [hl] at hd
          simp at hd
        | some dj =>
          rw [hl] at hd
          simp only [decide_eq_true_eq] at hd
          exact ⟨dj, rfl, hd⟩
      · intro hconj dep_id hdep
        obtain ⟨dj, hdj, hdjs⟩ := hconj.2 dep_id hdep
        rw [hdj]
        simp [hdjs]
    · rw [if_pos hst]
      constructor
      · intro hfalse
        simp at hfalse
      · intro hconj
        exact absurd hconj.1 hst
  · intro max_concurrent now now_instant s id j j' hj hnr hj' hrun
    rcases schedulerTick_cases max_concurrent now now_instant s with heq |
      ⟨jid0, rest, hq, heq⟩ | ⟨jid0, rest, job, hq, hl, hready, heq⟩ |
      ⟨jid0, rest, job, hq, hl, hready, heq⟩
    · rw [heq, hj] at hj'
      cases hj'
      exact absurd hrun hnr
    · rw [heq] at hj'
      have hj2 : alLookup s.jobs id = some j' := hj'
      rw [hj] at hj2
      cases hj2
      exact absurd hrun hnr
    · rw [heq] at hj'
      by_cases hid : id = jid0
      · subst hid
        rw [hj] at hl
        rw [Option.some.inj hl]
        exact hready
      · have hj2 : alLookup (alUpdate s.jobs jid0
            (fun jj => { jj with status := JobStatus.Running, started_at := some now }))
            id = some j' := hj'
        rw [alLookup_alUpdate_ne _ _ _ _ hid, hj] at hj2
        cases hj2
        exact absurd hrun hnr
    · rw [heq] at hj'
      have hj2 : alLookup s.jobs id = some j' := hj'
      rw [hj] at hj2
      cases hj2
      exact absurd hrun hnr

/-- Closed witness for C9: the dependency-free Queued job "g" that a tick
actually dispatches satisfies `is_ready_to_run` on the pre-tick job map. -/
theorem c9_dependency_gating_witness :
    (BatchJob.new "g" sampleType JobPriority.Normal 0).is_ready_to_run readyState.jobs =
      true := by
  exact c9_dependency_gating.2 4 7 7 readyState "g"
    (BatchJob.new "g" sampleType JobPriority.Normal 0)
    { BatchJob.new "g" sampleType JobPriority.Normal 0 with
        status := JobStatus.Running, started_at := some 7 }
    (by decide) (by decide) (by decide) (by decide)

end GaitBatch
